import Mathlib

/-!
Verification of the Twitch2YT relay script.

A shallow embedding of `Twitch2YT.py`: the quality selector
(`pick_best_stream`), the hardware-encoder detection (`detect_gpu_encoder`),
the ffmpeg launch/retry routine (`start_ffmpeg`, embedded as `attemptLoop` /
`start_ffmpeg`), the relay handoff (`Relay.start_new_ffmpeg`, embedded as
`start_new_ffmpeg`), the outer relay loop (`Relay.wait_for_stream` /
`Relay.start_relay`, embedded as a step function `step` over a system state
`Sys`), and the `__main__` shutdown path (`main_shutdown`).

Python machine-level details are modelled as follows: subprocess handles are
identified by pids (`Nat`); side effects (spawn, terminate, wait, kill, sleep,
log) are recorded in an event trace (`Ev`); exceptions are `Except` values;
the outcome of each external call (streamlink resolution, `Popen`, process
`wait` with a timeout, process `poll`, the wall clock) is given by explicit
oracle inputs (`LaunchEnv`, `StepIn`), so every definition is executable.
Times are in whole seconds (`Nat`).
-/

namespace Twitch2YT

/-- Stream availability status, the values taken by the Python string field
`Relay.last_stream_status` (`"online"` / `"offline"`; `None` at init is
`Option.none` at the use sites). -/
inductive Status where
  | online
  | offline
deriving DecidableEq, Repr

instance {α β : Type} [DecidableEq α] [DecidableEq β] : DecidableEq (Except α β)
  | .error a, .error b =>
    if h : a = b then .isTrue (congrArg Except.error h)
    else .isFalse (fun hc => h (Except.error.inj hc))
  | .error _, .ok _ => .isFalse (fun hc => Except.noConfusion hc)
  | .ok _, .error _ => .isFalse (fun hc => Except.noConfusion hc)
  | .ok a, .ok b =>
    if h : a = b then .isTrue (congrArg Except.ok h)
    else .isFalse (fun hc => h (Except.ok.inj hc))

/-- A streamlink stream variant: an opaque handle.  `urlResult` is the outcome
of calling `stream.to_url()` on it (`.error` models the call raising). -/
structure Variant where
  vid : Nat
  urlResult : Except String String
deriving DecidableEq, Repr

/-- The distinct log lines emitted by the script, abstracted from their
formatted text (`logger.info` / `logger.warning` / `logger.error` calls). -/
inductive LogMsg where
  /-- "Cannot get stream URL: e" -/
  | cannotGetURL
  /-- "FFmpeg attempt i failed: e" -/
  | attemptFailed (i : Nat)
  /-- "FFmpeg PID p started | Quality: q | Encoder: enc..." -/
  | ffmpegStarted (pid : Nat) (quality : String) (encoder : String)
  /-- "Stopping previous FFmpeg PID p" -/
  | stoppingPrevious (pid : Nat)
  /-- "Failed to start FFmpeg for q, retrying in 10s" -/
  | failedStart (quality : String)
  /-- "Waiting for Twitch stream..." -/
  | waitingOffline
  /-- "Twitch stream online | Quality: q" -/
  | streamOnline (quality : String)
  /-- "FFmpeg ended unexpectedly, restarting..." -/
  | endedUnexpectedly
  /-- "Max runtime reached, restarting FFmpeg..." -/
  | maxRuntime
  /-- "Higher quality available, upgrading..." -/
  | upgrading
  /-- "Stream offline, waiting..." -/
  | streamOffline
  /-- "Exiting..." -/
  | exiting
deriving DecidableEq, Repr

/-- One observable side effect of the script, in program order. -/
inductive Ev where
  /-- `subprocess.Popen(cmd, ...)` succeeding with pid `pid`. -/
  | spawn (pid : Nat) (cmd : List String)
  /-- `proc.terminate()`. -/
  | term (pid : Nat)
  /-- `proc.wait(timeout=secs)`. -/
  | waitT (pid : Nat) (secs : Nat)
  /-- `proc.wait()` with no timeout. -/
  | waitU (pid : Nat)
  /-- `proc.kill()`. -/
  | kill (pid : Nat)
  /-- `time.sleep(secs)`. -/
  | sleep (secs : Nat)
  /-- a logger call. -/
  | log (m : LogMsg)
deriving DecidableEq, Repr

/-- Number of events in a trace satisfying `p`. -/
def countEv (p : Ev → Bool) (tr : List Ev) : Nat := (tr.filter p).length

def isSpawn : Ev → Bool
  | .spawn _ _ => true
  | _ => false

def isKill : Ev → Bool
  | .kill _ => true
  | _ => false

def isWaitBounded : Ev → Bool
  | .waitT _ _ => true
  | _ => false

def isWaitUnbounded : Ev → Bool
  | .waitU _ => true
  | _ => false

def isSleepEv : Ev → Bool
  | .sleep _ => true
  | _ => false

def isSleep3 : Ev → Bool
  | .sleep 3 => true
  | _ => false

def isFailLog : Ev → Bool
  | .log (.attemptFailed _) => true
  | _ => false

def isUpgLog : Ev → Bool
  | .log .upgrading => true
  | _ => false

def isWaitOffLog : Ev → Bool
  | .log .waitingOffline => true
  | _ => false

def isStreamOffLog : Ev → Bool
  | .log .streamOffline => true
  | _ => false

def isOnlineLog : Ev → Bool
  | .log (.streamOnline _) => true
  | _ => false

/-- The four status-change log lines of the relay supervisor (offline while
waiting, online, upgrade, offline while relaying). -/
def isStatusLog (e : Ev) : Bool :=
  isWaitOffLog e || isStreamOffLog e || isOnlineLog e || isUpgLog e

/-! ## Live-process accounting

A pid becomes live at its `spawn` event.  We count it as dead as soon as a
`term` (or `kill`) is issued for it — the most generous reading for the
"at most one live subprocess" claim, since a terminated ffmpeg in reality
keeps running (and pushing) for a short while after SIGTERM. -/

/-- Effect of one event on the list of live pids. -/
def applyEv (cur : List Nat) : Ev → List Nat
  | .spawn p _ => if p ∈ cur then cur else cur ++ [p]
  | .term p => cur.erase p
  | .kill p => cur.erase p
  | _ => cur

/-- Live pids after executing a trace, starting from `init`. -/
def liveAfter (init : List Nat) (tr : List Ev) : List Nat :=
  tr.foldl applyEv init

/-! ## String helpers (Python `in` on strings, `str.lower`) -/

/-- `startsList sub l`: `sub` is an initial segment of `l`. -/
def startsList : List Char → List Char → Bool
  | [], _ => true
  | _ :: _, [] => false
  | a :: as, b :: bs => a = b && startsList as bs

/-- `subIn sub hay`: `sub` occurs contiguously inside `hay`
(Python `sub in hay` on strings). -/
def subIn (sub : List Char) : List Char → Bool
  | [] => startsList sub []
  | c :: t => startsList sub (c :: t) || subIn sub t

/-- Python `sub in hay` for strings. -/
def hasSub (hay sub : String) : Bool := subIn sub.data hay.data

/-- Python `s.lower()` (ASCII-relevant part), as a structural map over the
characters. -/
def lowerStr (s : String) : String := ⟨s.data.map Char.toLower⟩

/-- Python `any(c.isdigit() for c in q)` (labels are ASCII, so `Char.isDigit`
coincides with `str.isdigit` here). -/
def anyDigit (q : String) : Bool := q.data.any (fun c => c.isDigit)

/-! ## Quality selector — `pick_best_stream` (Twitch2YT.py lines 84-90)

The streamlink dict is embedded as an association list in insertion order;
`next(iter(streams.items()))` is the head, Python `sorted(qs, reverse=True)[0]`
of a nonempty list is its maximum in lexicographic string order (both Python
`<` on `str` and Lean `<` on `String` compare by code point, shorter prefix
first). -/

/-- `sorted(qs, reverse=True)[0]` for the nonempty list `q :: qr`. -/
def maxStr (q : String) (qr : List String) : String := qr.foldl max q

/-- Lines 86-90 of `pick_best_stream`, with the filtered digit-label list
`qs` passed explicitly: `[]` is `next(iter(streams.items()))`, and on
`q :: qr` the entry of `sorted(qs, reverse=True)[0]` is returned (that key
is always present in `streams`, so the dead `none` branch is unreachable —
see `pick_none_iff_empty`). -/
def pickDigitBranch (streams : List (String × Variant)) :
    List String → Option (String × Variant)
  | [] => streams.head?
  | q :: qr =>
    match List.lookup (maxStr q qr) streams with
    | some v => some (maxStr q qr, v)
    | none => none

/-- `pick_best_stream(streams)`.  Returns `none` only on an empty mapping
(where the Python code would raise `StopIteration`; callers check emptiness
first). -/
def pick_best_stream (streams : List (String × Variant)) :
    Option (String × Variant) :=
  match List.lookup "best" streams with
  | some v => some ("best", v)
  | none => pickDigitBranch streams ((streams.map Prod.fst).filter anyDigit)

/-! ## Encoder detection — `detect_gpu_encoder` (lines 36-45) -/

/-- `detect_gpu_encoder()`.  `capRes` is the outcome of
`subprocess.run([ffmpeg, "-encoders"], ..., check=True).stdout`; `.error`
models any exception (missing binary, non-zero exit, ...), caught by the
bare `except` and turned into `None`.  The scan runs on the lowercased
output.  Falling off the end of the `if` chain returns `None`. -/
def detect_gpu_encoder (capRes : Except Unit String) : Option String :=
  match capRes with
  | .error _ => none
  | .ok raw =>
    let out := lowerStr raw
    if hasSub out "h264_nvenc" then some "h264_nvenc"
    else if hasSub out "h264_amf" || hasSub out "h264_qsv" then
      if hasSub out "h264_amf" then some "h264_amf" else some "h264_qsv"
    else none

/-- The per-process immutable configuration: module-level globals of the
script, each computed exactly once at import time (`gpu_encoder`,
`low_cpu`, `low_ram`, `cpu_cores`, `YOUTUBE_RTMP`, `TWITCH_USER`). -/
structure Config where
  gpu_encoder : Option String
  low_cpu : Bool
  low_ram : Bool
  cpu_cores : Nat
  youtube_rtmp : String
deriving DecidableEq, Repr

/-- `FFMPEG_MAX_RUNTIME = 10.5*60*60` seconds. -/
def FFMPEG_MAX_RUNTIME : Nat := 37800

/-- Python `l.insert(i, a)` (insert before index `i`). -/
def insertAt (i : Nat) (a : String) (l : List String) : List String :=
  l.take i ++ a :: l.drop i

/-- The fixed part of the ffmpeg command line (lines 108-110). -/
def baseCmd (path url rtmp : String) : List String :=
  [path, "-nostats", "-loglevel", "warning", "-re", "-i", url,
   "-c:a", "aac", "-ar", "44100", "-b:a", "128k", "-ac", "2",
   "-f", "flv", rtmp]

/-- Command construction in `start_ffmpeg` (lines 108-119): base command,
then `cmd.insert(7, "-c:v"); cmd.insert(8, gpu_encoder)` when a hardware
encoder was detected, then the conservative low-resource flags. -/
def buildCmd (cfg : Config) (path url : String) : List String :=
  let cmd := baseCmd path url cfg.youtube_rtmp
  let cmd := match cfg.gpu_encoder with
    | some enc => insertAt 8 enc (insertAt 7 "-c:v" cmd)
    | none => cmd
  if cfg.low_cpu || cfg.low_ram then
    cmd ++ ["-threads", toString (max 1 cfg.cpu_cores), "-bufsize", "2M",
            "-fflags", "+genpts"]
  else cmd

/-- The video-encoder selection visible in a constructed command: the
argument following `"-c:v"` at position 7, if present. -/
def usesEncoder (cmd : List String) : Option String :=
  if cmd.get? 7 = some "-c:v" then cmd.get? 8 else none

/-! ## Resolver — `get_available_streams` (lines 78-82) -/

/-- `get_available_streams()`.  `raw` is the outcome of
`streamlink.streams(...)` (`.error` models the call raising, caught and
turned into `{}`); audio-only variants are filtered out. -/
def get_available_streams (raw : Except String (List (String × Variant))) :
    List (String × Variant) :=
  match raw with
  | .error _ => []
  | .ok l => l.filter (fun p => !(hasSub (lowerStr p.fst) "audio"))

/-! ## Process supervisor — `start_ffmpeg` (lines 97-137)

The global dict `active_processes` is an association list `String → pid`.
The oracle `LaunchEnv` supplies, per call, the outcomes of
`get_ffmpeg_path()` (which raises on a missing/non-executable binary),
of `subprocess.Popen` at each attempt (`none` = raises), and of the
`old_proc.wait(timeout=10)` at each attempt (`true` = times out, raising
`subprocess.TimeoutExpired`). -/

/-- Per-call oracle for `start_ffmpeg`. -/
structure LaunchEnv where
  ffmpegPath : Except String String
  popen : Nat → Option Nat
  oldWait : Nat → Bool

/-- `active_processes[user] = pid` (dict assignment on the assoc list). -/
def setA (k : String) (v : Nat) : List (String × Nat) → List (String × Nat)
  | [] => [(k, v)]
  | (k', v') :: t => if k' = k then (k, v) :: t else (k', v') :: setA k v t

/-- The inline retire at the launch-recording site (lines 127-128):
`old_proc.terminate(); old_proc.wait(timeout=10)`.  Returns the emitted
events and whether the wait raised `TimeoutExpired` (there is no kill
escalation at this site; the exception propagates to the enclosing
per-attempt `except`). -/
def retireOldAtLaunch (old : Nat) (timesOut : Bool) : List Ev × Bool :=
  ([Ev.term old, Ev.waitT old 10], timesOut)

/-- The retire inside `Relay.start_new_ffmpeg` (lines 202-205):
log, `terminate()`, `try: wait(timeout=10) except: kill()`. -/
def retirePrevAtHandoff (old : Nat) (timesOut : Bool) : List Ev :=
  [Ev.log (.stoppingPrevious old), Ev.term old, Ev.waitT old 10] ++
    (if timesOut then [Ev.kill old] else [])

/-- Prepend the events of a failed attempt to the rest of the loop's
outcome. -/
def prependTr (pre : List Ev)
    (r : Option Nat × List (String × Nat) × List Ev) :
    Option Nat × List (String × Nat) × List Ev :=
  (r.1, r.2.1, pre ++ r.2.2)

/-- The `for attempt in range(1, retries+1)` loop of `start_ffmpeg`
(lines 107-137), with `attempt` the 1-based attempt index and `fuel` the
remaining attempts.  Returns the result of the loop (`none` = fell through,
i.e. the Python function returns `None`), the updated `active_processes`,
and the event trace.  A `TimeoutExpired` from the retire at the recording
site is caught by the per-attempt `except`, logged as a failed attempt and
retried — the freshly spawned process is abandoned un-recorded. -/
def attemptLoop (cfg : Config) (env : LaunchEnv) (path url user quality : String)
    (active : List (String × Nat)) :
    Nat → Nat → Option Nat × List (String × Nat) × List Ev
  | _, 0 => (none, active, [])
  | attempt, fuel + 1 =>
    let cmd := buildCmd cfg path url
    let encUsed := cfg.gpu_encoder.getD "copy"
    match env.popen attempt with
    | none =>
      -- Popen raised
      prependTr [Ev.log (.attemptFailed attempt), Ev.sleep 3]
        (attemptLoop cfg env path url user quality active (attempt + 1) fuel)
    | some pid =>
      match List.lookup user active with
      | some old =>
        if old ≠ pid then
          if (retireOldAtLaunch old (env.oldWait attempt)).2 then
            prependTr (Ev.spawn pid cmd ::
                (retireOldAtLaunch old (env.oldWait attempt)).1 ++
                [Ev.log (.attemptFailed attempt), Ev.sleep 3])
              (attemptLoop cfg env path url user quality active (attempt + 1) fuel)
          else
            (some pid, setA user pid active,
              Ev.spawn pid cmd ::
                (retireOldAtLaunch old (env.oldWait attempt)).1 ++
                [Ev.log (.ffmpegStarted pid quality encUsed)])
        else
          (some pid, setA user pid active,
            [Ev.spawn pid cmd, Ev.log (.ffmpegStarted pid quality encUsed)])
      | none =>
        (some pid, setA user pid active,
          [Ev.spawn pid cmd, Ev.log (.ffmpegStarted pid quality encUsed)])

/-- `start_ffmpeg(stream, quality)` with the default `retries=3`.
An `.error` result is an exception escaping the function — this happens
exactly when `get_ffmpeg_path()` (line 105, outside any `try`) raises.
`stream.to_url()` raising is caught (lines 99-103) and yields `.ok none`. -/
def start_ffmpeg (cfg : Config) (env : LaunchEnv) (user : String)
    (stream : Variant) (quality : String) (active : List (String × Nat)) :
    Except String (Option Nat × List (String × Nat)) × List Ev :=
  match stream.urlResult with
  | .error _ => (.ok (none, active), [Ev.log .cannotGetURL])
  | .ok url =>
    match env.ffmpegPath with
    | .error e => (.error e, [])
    | .ok path =>
      let r := attemptLoop cfg env path url user quality active 1 3
      (.ok (r.1, r.2.1), r.2.2)

/-- Whether attempt `i` of the launch loop fails, given the previously
recorded pid for this user (`oldp`): `Popen` raises, or the old process's
graceful wait times out inside the lock. -/
def attemptFails (env : LaunchEnv) (oldp : Option Nat) (i : Nat) : Bool :=
  match env.popen i with
  | none => true
  | some pid =>
    match oldp with
    | some old => decide (old ≠ pid) && env.oldWait i
    | none => false

/-! ## Relay state and handoff — `Relay.start_new_ffmpeg` (lines 195-209) -/

/-- The mutable fields of the `Relay` object. -/
structure RelayState where
  current_ffmpeg : Option Nat
  current_quality : Option String
  start_time : Option Nat
  stream_obj : Option Variant
  last_stream_status : Option Status
  last_upgrade_logged : Bool
deriving DecidableEq, Repr

/-- `Relay.__init__`. -/
def initRelay : RelayState :=
  { current_ffmpeg := none, current_quality := none, start_time := none,
    stream_obj := none, last_stream_status := none, last_upgrade_logged := false }

/-- `Relay.start_new_ffmpeg(stream, quality)`.  `hTimeout` is the oracle for
the `wait(timeout=10)` at the handoff retire site, `now` the value of
`time.time()` at line 208.  On a `None` from `start_ffmpeg`: log, sleep 10
seconds, return with the state untouched.  On success: retire the previous
handle if distinct, then record the new handle, quality, start time and
stream object.  An exception from `start_ffmpeg` propagates. -/
def start_new_ffmpeg (cfg : Config) (env : LaunchEnv) (hTimeout : Bool)
    (now : Nat) (user : String) (st : RelayState)
    (active : List (String × Nat)) (stream : Variant) (quality : String) :
    Except String (RelayState × List (String × Nat)) × List Ev :=
  match start_ffmpeg cfg env user stream quality active with
  | (.error e, tr) => (.error e, tr)
  | (.ok (none, a), tr) =>
    (.ok (st, a), tr ++ [Ev.log (.failedStart quality), Ev.sleep 10])
  | (.ok (some p, a), tr) =>
    let retire : List Ev :=
      match st.current_ffmpeg with
      | some old => if old ≠ p then retirePrevAtHandoff old hTimeout else []
      | none => []
    (.ok ({ current_ffmpeg := some p, current_quality := some quality,
            start_time := some now, stream_obj := some stream,
            last_stream_status := st.last_stream_status,
            last_upgrade_logged := st.last_upgrade_logged }, a),
      tr ++ retire)

/-! ## The relay loop — `Relay.wait_for_stream` / `Relay.start_relay`
(lines 150-193) and `__main__` (lines 212-221)

The two nested `while True:` loops are embedded as a step function over a
control phase: `waiting` is one iteration of the `wait_for_stream` loop
(plus, when a stream is found, the immediately following
`start_new_ffmpeg` of the outer loop, lines 167-169); `monitor q v` is one
iteration of the inner steady-state loop, with `q`/`v` the loop-local
`quality`/`stream` variables of `start_relay`.  Each step consumes one
`StepIn` oracle record (the resolver result, the `poll()` outcome, the
clock, and the launch oracles for any launch performed in that step).
An `.error` first component is an exception escaping `start_relay`, which
terminates the process (`__main__` catches only `KeyboardInterrupt`). -/

/-- Whether an `Except` outcome is a normal return (no escaping
exception). -/
def isOkE {α : Type} (e : Except String α) : Bool :=
  match e with
  | .ok _ => true
  | .error _ => false

/-- Control position in `start_relay`. -/
inductive Phase where
  | waiting
  | monitor (quality : String) (stream : Variant)
deriving DecidableEq, Repr

/-- Whole-system state: the `Relay` object, the global `active_processes`,
and the control phase. -/
structure Sys where
  relay : RelayState
  active : List (String × Nat)
  phase : Phase
deriving DecidableEq, Repr

/-- State at `relay = Relay()` before `start_relay()`. -/
def initSys : Sys := { relay := initRelay, active := [], phase := .waiting }

/-- Oracle inputs for one step of the loop. -/
structure StepIn where
  raw : Except String (List (String × Variant))
  procAlive : Bool
  now : Nat
  launch : LaunchEnv
  hTimeout : Bool

/-- The streams this step's `get_available_streams()` call yields. -/
def streamsOf (inp : StepIn) : List (String × Variant) :=
  get_available_streams inp.raw

/-- One iteration of the `wait_for_stream` loop (lines 151-163); when a
variant is found this includes the outer loop's `start_new_ffmpeg`
(lines 168-169).  Streamlink stream objects are truthy, so `if stream:`
(line 155) is taken whenever the mapping is non-empty. -/
def stepWaiting (cfg : Config) (user : String) (inp : StepIn) (s : Sys) :
    Except String Sys × List Ev :=
  match pick_best_stream (streamsOf inp) with
  | some (q, v) =>
    let (st0, trOn) :=
      if s.relay.last_stream_status ≠ some Status.online then
        ({ s.relay with last_stream_status := some Status.online },
         [Ev.log (.streamOnline q)])
      else (s.relay, [])
    match start_new_ffmpeg cfg inp.launch inp.hTimeout inp.now user st0 s.active v q with
    | (.error e, tr) => (.error e, trOn ++ tr)
    | (.ok (st1, a1), tr) =>
      (.ok { relay := st1, active := a1, phase := .monitor q v }, trOn ++ tr)
  | none =>
    let (st0, trOff) :=
      if s.relay.last_stream_status ≠ some Status.offline then
        ({ s.relay with last_stream_status := some Status.offline },
         [Ev.log .waitingOffline])
      else (s.relay, [])
    (.ok { s with relay := st0 }, trOff ++ [Ev.sleep 15])

/-- The tail of the inner loop (lines 188-193): reset the upgrade flag, then
check 4 (source disappeared).  When the source has disappeared but the
status is already "offline", the code neither logs nor breaks. -/
def monElseBranch (s : Sys) (streams : List (String × Variant))
    (trS : List Ev) : Except String Sys × List Ev :=
  let st0 := { s.relay with last_upgrade_logged := false }
  if streams = [] ∧ st0.last_stream_status ≠ some Status.offline then
    let st1 := { st0 with last_stream_status := some Status.offline }
    (.ok { s with relay := st1, phase := .waiting },
     trS ++ [Ev.log .streamOffline])
  else
    (.ok { s with relay := st0 }, trS)

/-- One iteration of the inner steady-state loop (lines 170-193):
`time.sleep(30)`, then under the lock the four ordered checks.  `q`/`v`
are the loop-local `quality`/`stream` of `start_relay`; note that the
max-runtime rotation (line 179) hands off with these locals and then
`break`s to the outer loop. -/
def stepMonitor (cfg : Config) (user : String) (inp : StepIn) (s : Sys)
    (q : String) (v : Variant) : Except String Sys × List Ev :=
  let trS : List Ev := [Ev.sleep 30]
  match s.relay.current_ffmpeg with
  | none => (.ok { s with phase := .waiting }, trS ++ [Ev.log .endedUnexpectedly])
  | some _ =>
    if !inp.procAlive then
      (.ok { s with phase := .waiting }, trS ++ [Ev.log .endedUnexpectedly])
    else if inp.now - s.relay.start_time.getD 0 > FFMPEG_MAX_RUNTIME then
      match start_new_ffmpeg cfg inp.launch inp.hTimeout inp.now user s.relay s.active v q with
      | (.error e, tr) => (.error e, trS ++ Ev.log .maxRuntime :: tr)
      | (.ok (st1, a1), tr) =>
        (.ok { relay := st1, active := a1, phase := .waiting },
         trS ++ Ev.log .maxRuntime :: tr)
    else
      let streams := streamsOf inp
      match List.lookup "best" streams with
      | some bv =>
        if s.relay.current_quality ≠ some "best" then
          let (st0, trU) :=
            if !s.relay.last_upgrade_logged then
              ({ s.relay with last_upgrade_logged := true }, [Ev.log .upgrading])
            else (s.relay, [])
          match start_new_ffmpeg cfg inp.launch inp.hTimeout inp.now user st0 s.active bv "best" with
          | (.error e, tr) => (.error e, trS ++ trU ++ tr)
          | (.ok (st1, a1), tr) =>
            (.ok { relay := st1, active := a1, phase := .waiting }, trS ++ trU ++ tr)
        else
          monElseBranch s streams trS
      | none =>
        monElseBranch s streams trS

/-- One step of the relay supervisor. -/
def step (cfg : Config) (user : String) (inp : StepIn) (s : Sys) :
    Except String Sys × List Ev :=
  match s.phase with
  | .waiting => stepWaiting cfg user inp s
  | .monitor q v => stepMonitor cfg user inp s q v

/-- Run a sequence of steps, accumulating the trace; stops at the first
escaping exception (which kills the process). -/
def run (cfg : Config) (user : String) :
    List StepIn → Sys → Except String Sys × List Ev
  | [], s => (.ok s, [])
  | i :: is, s =>
    match step cfg user i s with
    | (.error e, tr) => (.error e, tr)
    | (.ok s', tr) =>
      let (r, tr') := run cfg user is s'
      (r, tr ++ tr')

/-- The `__main__` shutdown path (lines 217-221): on `KeyboardInterrupt`,
log "Exiting...", then if a subprocess is recorded, `terminate()` it and
`wait()` for it with no timeout; then the process ends. -/
def main_shutdown (cur : Option Nat) : List Ev :=
  Ev.log .exiting ::
    (match cur with
     | some p => [Ev.term p, Ev.waitU p]
     | none => [])

/-! ## Gating conditions for the status-change log lines

Boolean conditions on `(inp, s)` mirroring the control flow of `step`,
used to characterise exactly when each status log line is emitted. -/

/-- "Higher quality available, upgrading..." fires this step. -/
def upgLogFires (inp : StepIn) (s : Sys) : Bool :=
  match s.phase with
  | .waiting => false
  | .monitor _ _ =>
    match s.relay.current_ffmpeg with
    | none => false
    | some _ =>
      inp.procAlive &&
      !(decide (inp.now - s.relay.start_time.getD 0 > FFMPEG_MAX_RUNTIME)) &&
      (List.lookup "best" (streamsOf inp)).isSome &&
      decide (s.relay.current_quality ≠ some "best") &&
      !s.relay.last_upgrade_logged

/-- "Stream offline, waiting..." (check 4 of the inner loop) fires. -/
def streamOffLogFires (inp : StepIn) (s : Sys) : Bool :=
  match s.phase with
  | .waiting => false
  | .monitor _ _ =>
    match s.relay.current_ffmpeg with
    | none => false
    | some _ =>
      inp.procAlive &&
      !(decide (inp.now - s.relay.start_time.getD 0 > FFMPEG_MAX_RUNTIME)) &&
      !((List.lookup "best" (streamsOf inp)).isSome &&
        decide (s.relay.current_quality ≠ some "best")) &&
      decide (streamsOf inp = []) &&
      decide (s.relay.last_stream_status ≠ some Status.offline)

/-- "Waiting for Twitch stream..." fires. -/
def waitOffLogFires (inp : StepIn) (s : Sys) : Bool :=
  match s.phase with
  | .monitor _ _ => false
  | .waiting =>
    decide (streamsOf inp = []) &&
    decide (s.relay.last_stream_status ≠ some Status.offline)

/-- "Twitch stream online | ..." fires. -/
def onlineLogFires (inp : StepIn) (s : Sys) : Bool :=
  match s.phase with
  | .monitor _ _ => false
  | .waiting =>
    !(decide (streamsOf inp = [])) &&
    decide (s.relay.last_stream_status ≠ some Status.online)

/-- The quality-upgrade condition of check 3 of the monitoring loop
(line 182: a "best" variant resolvable while the current quality is not
"best"), without the log-gating flag. -/
def upgradeCondFires (inp : StepIn) (s : Sys) : Bool :=
  match s.phase with
  | .waiting => false
  | .monitor _ _ =>
    match s.relay.current_ffmpeg with
    | none => false
    | some _ =>
      inp.procAlive &&
      !(decide (inp.now - s.relay.start_time.getD 0 > FFMPEG_MAX_RUNTIME)) &&
      (List.lookup "best" (streamsOf inp)).isSome &&
      decide (s.relay.current_quality ≠ some "best")

/-! ## Concrete inputs used by witnesses and counterexamples -/

/-- A software-encoder configuration on an unconstrained host. -/
def cfgW : Config :=
  { gpu_encoder := none, low_cpu := false, low_ram := false,
    cpu_cores := 4, youtube_rtmp := "rtmp://x" }

/-- A resolvable 720p variant. -/
def v720w : Variant := ⟨1, .ok "u720"⟩

/-- A resolvable best variant. -/
def vbestw : Variant := ⟨2, .ok "ubest"⟩

/-- Launch oracle: `Popen` raises twice, then attempt 3 yields pid 9. -/
def envRetryW : LaunchEnv :=
  { ffmpegPath := .ok "/ff",
    popen := fun i => if i ≤ 2 then none else some 9,
    oldWait := fun _ => false }

/-- Launch oracle: every `Popen` raises. -/
def envFailW : LaunchEnv :=
  { ffmpegPath := .ok "/ff", popen := fun _ => none, oldWait := fun _ => false }

/-- Launch oracle: attempt `i` spawns pid `base + i`, no wait ever times out. -/
def envOkW (base : Nat) : LaunchEnv :=
  { ffmpegPath := .ok "/ff", popen := fun i => some (base + i),
    oldWait := fun _ => false }

/-- Launch oracle: `get_ffmpeg_path()` raises (binary vanished). -/
def envNoBinW : LaunchEnv :=
  { ffmpegPath := .error "FFmpeg missing at /x",
    popen := fun _ => some 5, oldWait := fun _ => false }

/-- A relay state with pid 1 recorded, quality 720p, session started at 0. -/
def stW : RelayState :=
  { current_ffmpeg := some 1, current_quality := some "720p",
    start_time := some 0, stream_obj := some v720w,
    last_stream_status := some .online, last_upgrade_logged := false }

/-- A system state in the steady-state monitoring loop on `stW`. -/
def sysRotW : Sys :=
  { relay := stW, active := [("chan", 1)], phase := .monitor "720p" v720w }

/-- A monitoring tick at 40000 s (past the 37800 s max runtime) on which the
relaunch finds the ffmpeg binary gone. -/
def inpNoBinW : StepIn :=
  { raw := .ok [("720p", v720w)], procAlive := true, now := 40000,
    launch := envNoBinW, hTimeout := false }

/-- An idle poll whose resolver call raises (network error) and whose
launcher would fail every attempt. -/
def inpIdleW : StepIn :=
  { raw := .error "network", procAlive := false, now := 0,
    launch := envFailW, hTimeout := false }

/-- A monitoring tick at 40000 s (past max runtime) with the stream still
up; the rotation's launch spawns pid 2. -/
def inpRot1W : StepIn :=
  { raw := .ok [("720p", v720w)], procAlive := true, now := 40000,
    launch := envOkW 1, hTimeout := false }

/-- The immediately following wait-for-stream poll: stream still up; the
launch spawns pid 3. -/
def inpRot2W : StepIn :=
  { raw := .ok [("720p", v720w)], procAlive := true, now := 40001,
    launch := envOkW 2, hTimeout := false }

/-- Upgrade-scenario poll 1: only 720p on offer; launch spawns pid 1. -/
def inpU1 : StepIn :=
  { raw := .ok [("720p", v720w)], procAlive := true, now := 10,
    launch := envOkW 0, hTimeout := false }

/-- Upgrade-scenario poll 2: "best" appears; launch spawns pid 2. -/
def inpU2 : StepIn :=
  { raw := .ok [("720p", v720w), ("best", vbestw)], procAlive := true,
    now := 20, launch := envOkW 1, hTimeout := false }

/-- Upgrade-scenario poll 3: "best" has vanished again; launch spawns
pid 3. -/
def inpU3 : StepIn :=
  { raw := .ok [("720p", v720w)], procAlive := true, now := 30,
    launch := envOkW 2, hTimeout := false }

/-- Upgrade-scenario poll 4: "best" is back; launch spawns pid 4. -/
def inpU4 : StepIn :=
  { raw := .ok [("720p", v720w), ("best", vbestw)], procAlive := true,
    now := 40, launch := envOkW 3, hTimeout := false }

/-- The system state after upgrade-scenario polls 1-3: relaying 720p with
pid 3, the upgrade-logged flag still set from poll 2's upgrade attempt. -/
def sysU3 : Sys :=
  { relay := { current_ffmpeg := some 3, current_quality := some "720p",
               start_time := some 30, stream_obj := some v720w,
               last_stream_status := some .online, last_upgrade_logged := true },
    active := [("chan", 3)], phase := .monitor "720p" v720w }

/-! ## Association-list and maximum lemmas -/

theorem lookup_mem {β : Type} {k : String} {v : β} {l : List (String × β)}
    (h : List.lookup k l = some v) : (k, v) ∈ l := by
  induction l with
  | nil => simp at h
  | cons p t ih =>
    obtain ⟨k', v'⟩ := p
    rw [List.lookup_cons] at h
    cases hkk : k == k' with
    | true =>
      rw [hkk] at h
      simp at h
      have hk : k = k' := eq_of_beq hkk
      subst hk
      subst h
      exact List.mem_cons_self _ _
    | false =>
      rw [hkk] at h
      simp at h
      exact List.mem_cons_of_mem _ (ih h)

theorem mem_keys_of_lookup {β : Type} {k : String} {v : β}
    {l : List (String × β)} (h : List.lookup k l = some v) :
    k ∈ l.map Prod.fst :=
  List.mem_map.mpr ⟨(k, v), lookup_mem h, rfl⟩

theorem lookup_isSome_of_mem {β : Type} {k : String} {l : List (String × β)}
    (h : k ∈ l.map Prod.fst) : ∃ v, List.lookup k l = some v := by
  induction l with
  | nil => simp at h
  | cons p t ih =>
    obtain ⟨k', v'⟩ := p
    rw [List.lookup_cons]
    by_cases hk : k = k'
    · subst hk
      simp
    · have hb : (k == k') = false := beq_eq_false_iff_ne.mpr hk
      rw [hb]
      apply ih
      rw [List.map_cons] at h
      rcases List.mem_cons.mp h with h | h
      · exact absurd h hk
      · exact h

theorem not_mem_keys_of_lookup_none {β : Type} {k : String}
    {l : List (String × β)} (h : List.lookup k l = none) :
    k ∉ l.map Prod.fst := by
  intro hmem
  obtain ⟨v, hv⟩ := lookup_isSome_of_mem hmem
  rw [h] at hv
  exact Option.noConfusion hv

theorem maxStr_cons (q a : String) (t : List String) :
    maxStr q (a :: t) = maxStr (max q a) t := rfl

theorem maxStr_mem (q : String) (qr : List String) : maxStr q qr ∈ q :: qr := by
  induction qr generalizing q with
  | nil => simp [maxStr]
  | cons a t ih =>
    rw [maxStr_cons]
    rcases List.mem_cons.mp (ih (max q a)) with h | h
    · rw [h]
      rcases max_choice q a with h' | h'
      · rw [h']
        exact List.mem_cons_self _ _
      · rw [h']
        exact List.mem_cons_of_mem _ (List.mem_cons_self _ _)
    · exact List.mem_cons_of_mem _ (List.mem_cons_of_mem _ h)

theorem le_maxStr (q : String) (qr : List String) :
    ∀ x ∈ q :: qr, x ≤ maxStr q qr := by
  induction qr generalizing q with
  | nil =>
    intro x hx
    simp at hx
    rw [hx]
    exact le_refl _
  | cons a t ih =>
    intro x hx
    rw [maxStr_cons]
    have hhead : max q a ≤ maxStr (max q a) t :=
      ih (max q a) (max q a) (List.mem_cons_self _ _)
    rcases List.mem_cons.mp hx with h | h
    · rw [h]
      exact le_trans (le_max_left q a) hhead
    · rcases List.mem_cons.mp h with h' | h'
      · rw [h']
        exact le_trans (le_max_right q a) hhead
      · exact ih (max q a) x (List.mem_cons_of_mem _ h')

theorem pick_eq_best {streams : List (String × Variant)} {v : Variant}
    (hb : List.lookup "best" streams = some v) :
    pick_best_stream streams = some ("best", v) := by
  unfold pick_best_stream
  rw [hb]

theorem pick_eq_digit {streams : List (String × Variant)}
    (hb : List.lookup "best" streams = none) :
    pick_best_stream streams =
      pickDigitBranch streams ((streams.map Prod.fst).filter anyDigit) := by
  unfold pick_best_stream
  rw [hb]

theorem pickDigitBranch_cons {streams : List (String × Variant)}
    {q0 : String} {qr : List String} {v : Variant}
    (hv : List.lookup (maxStr q0 qr) streams = some v) :
    pickDigitBranch streams (q0 :: qr) = some (maxStr q0 qr, v) := by
  have heq : pickDigitBranch streams (q0 :: qr) =
      match List.lookup (maxStr q0 qr) streams with
      | some w => some (maxStr q0 qr, w)
      | none => none := rfl
  rw [heq, hv]

/-- `pick_best_stream` fails exactly on the empty mapping. -/
theorem pick_none_iff_empty (streams : List (String × Variant)) :
    pick_best_stream streams = none ↔ streams = [] := by
  constructor
  · intro h
    by_contra hne
    cases hb : List.lookup "best" streams with
    | some v =>
      rw [pick_eq_best hb] at h
      exact Option.noConfusion h
    | none =>
      rw [pick_eq_digit hb] at h
      cases hf : (streams.map Prod.fst).filter anyDigit with
      | nil =>
        rw [hf] at h
        have hh : streams.head? = none := h
        rw [List.head?_eq_none_iff] at hh
        exact hne hh
      | cons q0 qr =>
        have hmem : maxStr q0 qr ∈ (streams.map Prod.fst).filter anyDigit := by
          rw [hf]; exact maxStr_mem q0 qr
        obtain ⟨v, hv⟩ := lookup_isSome_of_mem (List.mem_of_mem_filter hmem)
        rw [hf, pickDigitBranch_cons hv] at h
        exact Option.noConfusion h
  · intro h
    subst h
    rfl

/-- C2: quality selection.  For a non-empty mapping: the "best" entry wins
when present; otherwise the entry of the lexicographically greatest
digit-containing label; otherwise the first enumerated entry — including
the claim's mis-ordering example that {"160p", "1080p"} yields "160p". -/
theorem pick_best_stream_spec (streams : List (String × Variant))
    (hne : streams ≠ []) :
    (∃ q v, pick_best_stream streams = some (q, v) ∧ (q, v) ∈ streams ∧
      ("best" ∈ streams.map Prod.fst → q = "best") ∧
      ("best" ∉ streams.map Prod.fst →
        ∀ l ∈ (streams.map Prod.fst).filter anyDigit, l ≤ q) ∧
      ("best" ∉ streams.map Prod.fst →
        (streams.map Prod.fst).filter anyDigit ≠ [] → anyDigit q = true) ∧
      ("best" ∉ streams.map Prod.fst →
        (streams.map Prod.fst).filter anyDigit = [] →
        streams.head? = some (q, v))) ∧
    (∀ X Y : Variant,
      pick_best_stream [("160p", X), ("1080p", Y)] = some ("160p", X)) := by
  constructor
  · cases hb : List.lookup "best" streams with
    | some v =>
      refine ⟨"best", v, pick_eq_best hb, lookup_mem hb, fun _ => rfl, ?_, ?_, ?_⟩ <;>
        · intro hnb
          exact absurd (mem_keys_of_lookup hb) hnb
    | none =>
      have hnb : "best" ∉ streams.map Prod.fst := not_mem_keys_of_lookup_none hb
      cases hf : (streams.map Prod.fst).filter anyDigit with
      | nil =>
        cases hh : streams.head? with
        | none =>
          rw [List.head?_eq_none_iff] at hh
          exact absurd hh hne
        | some p =>
          obtain ⟨q0, v0⟩ := p
          have hpick : pick_best_stream streams = some (q0, v0) := by
            rw [pick_eq_digit hb, hf]
            exact hh
          refine ⟨q0, v0, hpick, List.mem_of_mem_head? hh,
            fun hmem => absurd hmem hnb, ?_, ?_, ?_⟩
          · intro _ l hl
            simp at hl
          · intro _ hne'
            exact absurd rfl hne'
          · intro _ _
            rfl
      | cons q0 qr =>
        have hmemf : maxStr q0 qr ∈ (streams.map Prod.fst).filter anyDigit := by
          rw [hf]; exact maxStr_mem q0 qr
        obtain ⟨v, hv⟩ := lookup_isSome_of_mem (List.mem_of_mem_filter hmemf)
        have hpick : pick_best_stream streams = some (maxStr q0 qr, v) := by
          rw [pick_eq_digit hb, hf]
          exact pickDigitBranch_cons hv
        refine ⟨maxStr q0 qr, v, hpick, lookup_mem hv,
          fun hmem => absurd hmem hnb, ?_, ?_, ?_⟩
        · intro _ l hl
          exact le_maxStr q0 qr l hl
        · intro _ _
          exact List.of_mem_filter hmemf
        · intro _ hnil
          exact absurd hnil (List.cons_ne_nil q0 qr)
  · intro X Y
    have h1 : ("best" == "160p") = false := by decide
    have h2 : ("best" == "1080p") = false := by decide
    have hb : List.lookup "best" [("160p", X), ("1080p", Y)] = none := by
      simp [List.lookup, h1, h2]
    rw [pick_eq_digit hb]
    have hf : (([("160p", X), ("1080p", Y)].map Prod.fst).filter anyDigit) =
        ["160p", "1080p"] := rfl
    rw [hf]
    have hle : ("1080p" : String) ≤ "160p" := by
      rw [String.le_iff_toList_le]
      decide
    have hm : maxStr "160p" ["1080p"] = "160p" := max_eq_left hle
    have hv : List.lookup (maxStr "160p" ["1080p"])
        [("160p", X), ("1080p", Y)] = some X := by
      rw [hm]
      simp [List.lookup]
    rw [pickDigitBranch_cons hv, hm]

/-- Witness for `pick_best_stream_spec` at the claim's own example input. -/
theorem pick_best_stream_spec_witness :
    ∃ q v, pick_best_stream
        [("160p", (⟨1, .ok "u1"⟩ : Variant)), ("1080p", ⟨2, .ok "u2"⟩)] =
          some (q, v) ∧
      (q, v) ∈ [("160p", (⟨1, .ok "u1"⟩ : Variant)), ("1080p", ⟨2, .ok "u2"⟩)] := by
  obtain ⟨⟨q, v, h1, h2, _⟩, _⟩ :=
    pick_best_stream_spec
      [("160p", (⟨1, .ok "u1"⟩ : Variant)), ("1080p", ⟨2, .ok "u2"⟩)] (by decide)
  exact ⟨q, v, h1, h2⟩

/-! ## C10 — hardware-encoder detection -/

/-- C10: `detect_gpu_encoder` returns `h264_nvenc` exactly when the
(lowercased) capability output contains it, else `h264_amf` when present,
else `h264_qsv` when present, else no hardware encoder; a failing
capability query also yields no hardware encoder.  The detection runs once
at process start and its result is stored in the immutable `Config`; every
command the launcher ever constructs takes its video-encoder selection
from that stored value (`usesEncoder (buildCmd cfg path url) =
cfg.gpu_encoder`), so the choice is never recomputed. -/
theorem detect_gpu_encoder_spec :
    (∀ u : Unit, detect_gpu_encoder (.error u) = none) ∧
    (∀ raw : String,
      (detect_gpu_encoder (.ok raw) = some "h264_nvenc" ↔
        hasSub (lowerStr raw) "h264_nvenc" = true) ∧
      (detect_gpu_encoder (.ok raw) = some "h264_amf" ↔
        (hasSub (lowerStr raw) "h264_nvenc" = false ∧
         hasSub (lowerStr raw) "h264_amf" = true)) ∧
      (detect_gpu_encoder (.ok raw) = some "h264_qsv" ↔
        (hasSub (lowerStr raw) "h264_nvenc" = false ∧
         hasSub (lowerStr raw) "h264_amf" = false ∧
         hasSub (lowerStr raw) "h264_qsv" = true)) ∧
      (detect_gpu_encoder (.ok raw) = none ↔
        (hasSub (lowerStr raw) "h264_nvenc" = false ∧
         hasSub (lowerStr raw) "h264_amf" = false ∧
         hasSub (lowerStr raw) "h264_qsv" = false))) ∧
    (∀ (cfg : Config) (path url : String),
      usesEncoder (buildCmd cfg path url) = cfg.gpu_encoder) := by
  refine ⟨fun _ => rfl, ?_, ?_⟩
  · intro raw
    cases h1 : hasSub (lowerStr raw) "h264_nvenc" <;>
      cases h2 : hasSub (lowerStr raw) "h264_amf" <;>
        cases h3 : hasSub (lowerStr raw) "h264_qsv" <;>
          simp [detect_gpu_encoder, h1, h2, h3]
  · intro cfg path url
    cases hg : cfg.gpu_encoder <;>
      simp only [buildCmd, hg, baseCmd, insertAt] <;>
        split <;> rfl

/-! ## C5 — launch retry behaviour of `start_ffmpeg` -/

theorem countEv_append (p : Ev → Bool) (a b : List Ev) :
    countEv p (a ++ b) = countEv p a + countEv p b := by
  simp [countEv, List.filter_append]

theorem attemptLoop_all_fail (cfg : Config) (env : LaunchEnv)
    (path url user quality : String) (active : List (String × Nat)) :
    ∀ fuel attempt,
      (∀ i, attempt ≤ i → i < attempt + fuel →
        attemptFails env (List.lookup user active) i = true) →
      (attemptLoop cfg env path url user quality active attempt fuel).1 = none ∧
      (attemptLoop cfg env path url user quality active attempt fuel).2.1 = active ∧
      countEv isFailLog
        (attemptLoop cfg env path url user quality active attempt fuel).2.2 = fuel ∧
      countEv isSleep3
        (attemptLoop cfg env path url user quality active attempt fuel).2.2 = fuel := by
  intro fuel
  induction fuel with
  | zero =>
    intro attempt _
    exact ⟨rfl, rfl, rfl, rfl⟩
  | succ n ih =>
    intro attempt h
    have hfail : attemptFails env (List.lookup user active) attempt = true :=
      h attempt (le_refl _) (by omega)
    have hrec := ih (attempt + 1) (fun i h1 h2 => h i (by omega) (by omega))
    unfold attemptFails at hfail
    cases hp : env.popen attempt with
    | none =>
      simp only [attemptLoop, hp, prependTr]
      refine ⟨hrec.1, hrec.2.1, ?_, ?_⟩
      · rw [countEv_append, hrec.2.2.1]
        simp [countEv, isFailLog]
        omega
      · rw [countEv_append, hrec.2.2.2]
        simp [countEv, isSleep3]
        omega
    | some pid =>
      rw [hp] at hfail
      cases hl : List.lookup user active with
      | none =>
        rw [hl] at hfail
        simp at hfail
      | some old =>
        rw [hl] at hfail
        rw [Bool.and_eq_true] at hfail
        have hne : old ≠ pid := of_decide_eq_true hfail.1
        have hw : env.oldWait attempt = true := hfail.2
        simp only [attemptLoop, hp, hl, hne, retireOldAtLaunch, hw,
          if_true, if_pos, prependTr, ne_eq, not_false_eq_true, ite_true]
        refine ⟨hrec.1, hrec.2.1, ?_, ?_⟩
        · rw [countEv_append, hrec.2.2.1]
          simp [countEv, isFailLog]
          omega
        · rw [countEv_append, hrec.2.2.2]
          simp [countEv, isSleep3]
          omega

theorem attemptLoop_success_at (cfg : Config) (env : LaunchEnv)
    (path url user quality : String) (active : List (String × Nat)) :
    ∀ fuel attempt k pid,
      attempt ≤ k → k < attempt + fuel →
      (∀ i, attempt ≤ i → i < k →
        attemptFails env (List.lookup user active) i = true) →
      attemptFails env (List.lookup user active) k = false →
      env.popen k = some pid →
      (attemptLoop cfg env path url user quality active attempt fuel).1 = some pid ∧
      (attemptLoop cfg env path url user quality active attempt fuel).2.1 =
        setA user pid active ∧
      countEv isFailLog
        (attemptLoop cfg env path url user quality active attempt fuel).2.2 =
          k - attempt ∧
      countEv isSleep3
        (attemptLoop cfg env path url user quality active attempt fuel).2.2 =
          k - attempt := by
  intro fuel
  induction fuel with
  | zero =>
    intro attempt k pid h1 h2 _ _ _
    omega
  | succ n ih =>
    intro attempt k pid hak hkf hprev hks hp
    by_cases heq : attempt = k
    · subst heq
      unfold attemptFails at hks
      rw [hp] at hks
      cases hl : List.lookup user active with
      | none =>
        simp [attemptLoop, hp, hl, countEv, isFailLog, isSleep3]
      | some old =>
        rw [hl] at hks
        by_cases hop : old = pid
        · simp [attemptLoop, hp, hl, hop, countEv, isFailLog, isSleep3]
        · have hw : env.oldWait attempt = false := by
            rw [Bool.and_eq_false_iff] at hks
            rcases hks with hks | hks
            · rw [decide_eq_false_iff_not] at hks
              exact absurd hop (by simpa using hks)
            · exact hks
          simp [attemptLoop, hp, hl, hop, retireOldAtLaunch, hw, countEv,
            isFailLog, isSleep3]
    · have hlt : attempt < k := by omega
      have hfail : attemptFails env (List.lookup user active) attempt = true :=
        hprev attempt (le_refl _) hlt
      have hrec := ih (attempt + 1) k pid (by omega) (by omega)
        (fun i h1 h2 => hprev i (by omega) h2) hks hp
      unfold attemptFails at hfail
      cases hpa : env.popen attempt with
      | none =>
        simp only [attemptLoop, hpa, prependTr]
        refine ⟨hrec.1, hrec.2.1, ?_, ?_⟩
        · rw [countEv_append, hrec.2.2.1]
          simp [countEv, isFailLog]
          omega
        · rw [countEv_append, hrec.2.2.2]
          simp [countEv, isSleep3]
          omega
      | some pid' =>
        rw [hpa] at hfail
        cases hl : List.lookup user active with
        | none =>
          rw [hl] at hfail
          simp at hfail
        | some old =>
          rw [hl] at hfail
          rw [Bool.and_eq_true] at hfail
          have hne : old ≠ pid' := of_decide_eq_true hfail.1
          have hw : env.oldWait attempt = true := hfail.2
          simp only [attemptLoop, hpa, hl, hne, retireOldAtLaunch, hw,
            prependTr, ne_eq, not_false_eq_true, ite_true]
          refine ⟨hrec.1, hrec.2.1, ?_, ?_⟩
          · rw [countEv_append, hrec.2.2.1]
            simp [countEv, isFailLog]
            omega
          · rw [countEv_append, hrec.2.2.2]
            simp [countEv, isSleep3]
            omega

/-- C5: the retry schedule of `start_ffmpeg`.  Under a resolvable URL and a
present binary: when every attempt fails, the launcher makes exactly 3
attempts, logs each failure and sleeps 3 seconds after each of the 3 failed
attempts, and returns the failure signal `None` with the process table
untouched; when the first success is at attempt `k ≤ 3`, it returns the
live handle spawned at attempt `k` (recording it in the process table)
after exactly `k - 1` failure logs and `k - 1` backoff sleeps. -/
theorem start_ffmpeg_retry_spec (cfg : Config) (env : LaunchEnv)
    (user : String) (stream : Variant) (quality : String)
    (active : List (String × Nat)) (url path : String)
    (hurl : stream.urlResult = .ok url) (hpath : env.ffmpegPath = .ok path) :
    ((∀ i, 1 ≤ i → i ≤ 3 →
        attemptFails env (List.lookup user active) i = true) →
      (start_ffmpeg cfg env user stream quality active).1 = .ok (none, active) ∧
      countEv isFailLog (start_ffmpeg cfg env user stream quality active).2 = 3 ∧
      countEv isSleep3 (start_ffmpeg cfg env user stream quality active).2 = 3) ∧
    (∀ k pid, 1 ≤ k → k ≤ 3 →
      (∀ i, 1 ≤ i → i < k →
        attemptFails env (List.lookup user active) i = true) →
      attemptFails env (List.lookup user active) k = false →
      env.popen k = some pid →
      (start_ffmpeg cfg env user stream quality active).1 =
        .ok (some pid, setA user pid active) ∧
      countEv isFailLog (start_ffmpeg cfg env user stream quality active).2 =
        k - 1 ∧
      countEv isSleep3 (start_ffmpeg cfg env user stream quality active).2 =
        k - 1) := by
  have hsf : start_ffmpeg cfg env user stream quality active =
      (.ok ((attemptLoop cfg env path url user quality active 1 3).1,
            (attemptLoop cfg env path url user quality active 1 3).2.1),
       (attemptLoop cfg env path url user quality active 1 3).2.2) := by
    unfold start_ffmpeg
    rw [hurl, hpath]
  constructor
  · intro hall
    have h := attemptLoop_all_fail cfg env path url user quality active 3 1
      (fun i h1 h2 => hall i h1 (by omega))
    rw [hsf]
    exact ⟨by rw [h.1, h.2.1], h.2.2.1, h.2.2.2⟩
  · intro k pid hk1 hk3 hprev hks hp
    have h := attemptLoop_success_at cfg env path url user quality active 3 1 k pid
      hk1 (by omega) hprev hks hp
    rw [hsf]
    exact ⟨by rw [h.1, h.2.1], h.2.2.1, h.2.2.2⟩

/-- Witness: the spec's own test — a launcher that fails twice then
succeeds spawns pid 9 on attempt 3 after 2 failure logs and 2 sleeps; and
one that always fails returns `None` after exactly 3 logged, slept-after
attempts. -/
theorem start_ffmpeg_retry_spec_witness :
    ((start_ffmpeg cfgW envRetryW "chan" v720w "720p" []).1 =
        .ok (some 9, [("chan", 9)]) ∧
      countEv isFailLog (start_ffmpeg cfgW envRetryW "chan" v720w "720p" []).2 = 2 ∧
      countEv isSleep3 (start_ffmpeg cfgW envRetryW "chan" v720w "720p" []).2 = 2) ∧
    ((start_ffmpeg cfgW envFailW "chan" v720w "720p" []).1 = .ok (none, []) ∧
      countEv isFailLog (start_ffmpeg cfgW envFailW "chan" v720w "720p" []).2 = 3 ∧
      countEv isSleep3 (start_ffmpeg cfgW envFailW "chan" v720w "720p" []).2 = 3) := by
  constructor
  · have h := (start_ffmpeg_retry_spec cfgW envRetryW "chan" v720w "720p" []
      "u720" "/ff" rfl rfl).2 3 9 (by omega) (by omega)
      (by intro i h1 h2; interval_cases i <;> rfl) rfl rfl
    exact h
  · have h := (start_ffmpeg_retry_spec cfgW envFailW "chan" v720w "720p" []
      "u720" "/ff" rfl rfl).1
      (by intro i h1 h2; rfl)
    exact h

/-! ## C4 — retirement behaviour at the two retire sites -/

theorem countEv_eq_zero (p : Ev → Bool) (tr : List Ev) :
    countEv p tr = 0 ↔ ∀ e ∈ tr, p e = false := by
  simp [countEv, List.length_eq_zero, List.filter_eq_nil_iff]

theorem attemptLoop_no_kill (cfg : Config) (env : LaunchEnv)
    (path url user quality : String) (active : List (String × Nat)) :
    ∀ fuel attempt,
      countEv isKill
        (attemptLoop cfg env path url user quality active attempt fuel).2.2 = 0 := by
  intro fuel
  induction fuel with
  | zero => intro attempt; rfl
  | succ n ih =>
    intro attempt
    cases hp : env.popen attempt with
    | none =>
      simp [attemptLoop, hp, prependTr, countEv_append, countEv, isKill]
      exact fun a ha => (countEv_eq_zero isKill _).mp (ih (attempt + 1)) a ha
    | some pid =>
      cases hl : List.lookup user active with
      | none => simp [attemptLoop, hp, hl, countEv, isKill]
      | some old =>
        by_cases hop : old = pid
        · simp [attemptLoop, hp, hl, hop, countEv, isKill]
        · cases hw : env.oldWait attempt with
          | false =>
            simp [attemptLoop, hp, hl, hop, retireOldAtLaunch, hw, countEv, isKill]
          | true =>
            simp [attemptLoop, hp, hl, hop, retireOldAtLaunch, hw, prependTr,
              countEv_append, countEv, isKill]
            exact fun a ha => (countEv_eq_zero isKill _).mp (ih (attempt + 1)) a ha

/-- C4 counterexample: at the launch-recording retire site
(`old_proc.terminate(); old_proc.wait(timeout=10)`, lines 127-128) a
timed-out graceful wait raises `TimeoutExpired` out of the retire sequence
(second component `true`) and the emitted events contain no forced kill —
contradicting the claim that every retire site escalates to a kill on
timeout and never raises. -/
theorem retire_launch_site_raises_no_kill :
    (retireOldAtLaunch 7 true).2 = true ∧
    countEv isKill (retireOldAtLaunch 7 true).1 = 0 ∧
    (retireOldAtLaunch 7 true).1 = [Ev.term 7, Ev.waitT 7 10] :=
  ⟨rfl, rfl, rfl⟩

/-- C4 amended: the handoff-site retire (`Relay.start_new_ffmpeg`,
lines 203-205) terminates, waits at most 10 seconds, kills exactly when the
wait times out, and never raises; the launch-recording retire site
(lines 127-128) terminates and waits at most 10 seconds but never kills,
and a timeout there raises into the per-attempt handler of the launch loop
(so the launch loop as a whole never issues a kill). -/
theorem retire_sites_behavior :
    (∀ (old : Nat) (t : Bool),
      (Ev.kill old ∈ retirePrevAtHandoff old t ↔ t = true) ∧
      Ev.term old ∈ retirePrevAtHandoff old t ∧
      Ev.waitT old 10 ∈ retirePrevAtHandoff old t ∧
      (retireOldAtLaunch old t).2 = t ∧
      (retireOldAtLaunch old t).1 = [Ev.term old, Ev.waitT old 10] ∧
      countEv isKill (retireOldAtLaunch old t).1 = 0) ∧
    (∀ (cfg : Config) (env : LaunchEnv) (path url user quality : String)
        (active : List (String × Nat)) (attempt fuel : Nat),
      countEv isKill
        (attemptLoop cfg env path url user quality active attempt fuel).2.2 = 0) := by
  constructor
  · intro old t
    cases t <;>
      simp [retirePrevAtHandoff, retireOldAtLaunch, countEv, isKill]
  · intro cfg env path url user quality active attempt fuel
    exact attemptLoop_no_kill cfg env path url user quality active fuel attempt

/-! ## C9 — failed handoff leaves the relay state untouched -/

/-- C9: when the `start_ffmpeg` step of the handoff returns the failure
signal, `Relay.start_new_ffmpeg` logs the failure, sleeps the fixed
10-second delay, and returns with the relay state object literally
unchanged — the recorded subprocess handle, quality label, session start
timestamp, stream object (and the status/upgrade-flag fields) all keep
their prior values. -/
theorem handoff_failure_frame (cfg : Config) (env : LaunchEnv) (hT : Bool)
    (now : Nat) (user : String) (st : RelayState)
    (active a : List (String × Nat)) (stream : Variant) (quality : String)
    (tr : List Ev)
    (h : start_ffmpeg cfg env user stream quality active = (.ok (none, a), tr)) :
    start_new_ffmpeg cfg env hT now user st active stream quality =
      (.ok (st, a), tr ++ [Ev.log (.failedStart quality), Ev.sleep 10]) := by
  unfold start_new_ffmpeg
  rw [h]

/-- Witness: a launch that exhausts its three attempts aborts the handoff,
leaving the relay state `stW` intact, after the failure log and the
10-second sleep. -/
theorem handoff_failure_frame_witness :
    start_new_ffmpeg cfgW envFailW false 50 "chan" stW [] v720w "720p" =
      (.ok (stW, []),
       [Ev.log (.attemptFailed 1), Ev.sleep 3, Ev.log (.attemptFailed 2),
        Ev.sleep 3, Ev.log (.attemptFailed 3), Ev.sleep 3] ++
         [Ev.log (.failedStart "720p"), Ev.sleep 10]) :=
  handoff_failure_frame cfgW envFailW false 50 "chan" stW [] [] v720w "720p"
    _ rfl

/-! ## C1 — liveness during and after a handoff -/

/-- C1 counterexample: on the reachable handoff where pid 1 is the recorded
subprocess and the launch succeeds with pid 2, the instant after the
`Popen` (the first event of the handoff trace) BOTH pids are live — even
counting a process as dead from the moment `terminate()` is sent — because
the new subprocess is started before the old one is retired.  This
contradicts "at no point between starting a new subprocess and retiring
the previously recorded one are two subprocesses simultaneously pushing".
-/
theorem handoff_two_live_overlap :
    liveAfter [1]
      ((start_new_ffmpeg cfgW (envOkW 1) false 50 "chan" stW [("chan", 1)]
          vbestw "best").2.take 1) = [1, 2] ∧
    (liveAfter [1]
      ((start_new_ffmpeg cfgW (envOkW 1) false 50 "chan" stW [("chan", 1)]
          vbestw "best").2.take 1)).length = 2 :=
  ⟨rfl, rfl⟩

/-- A handoff whose launch succeeds at the first attempt, from a state with
a distinct recorded old pid: the full result and trace. -/
theorem start_new_ffmpeg_first_attempt (cfg : Config) (env : LaunchEnv)
    (hT : Bool) (now : Nat) (user : String) (st : RelayState)
    (active : List (String × Nat)) (stream : Variant) (quality : String)
    (url path : String) (old pid : Nat)
    (hurl : stream.urlResult = .ok url) (hpath : env.ffmpegPath = .ok path)
    (hcur : st.current_ffmpeg = some old)
    (hact : List.lookup user active = some old)
    (hp : env.popen 1 = some pid) (hne : old ≠ pid)
    (hw : env.oldWait 1 = false) :
    start_new_ffmpeg cfg env hT now user st active stream quality =
      (.ok ({ current_ffmpeg := some pid, current_quality := some quality,
              start_time := some now, stream_obj := some stream,
              last_stream_status := st.last_stream_status,
              last_upgrade_logged := st.last_upgrade_logged },
            setA user pid active),
       [Ev.spawn pid (buildCmd cfg path url), Ev.term old, Ev.waitT old 10,
        Ev.log (.ffmpegStarted pid quality (cfg.gpu_encoder.getD "copy"))] ++
         retirePrevAtHandoff old hT) := by
  have hsf : start_ffmpeg cfg env user stream quality active =
      (.ok ((attemptLoop cfg env path url user quality active 1 3).1,
            (attemptLoop cfg env path url user quality active 1 3).2.1),
       (attemptLoop cfg env path url user quality active 1 3).2.2) := by
    unfold start_ffmpeg
    rw [hurl, hpath]
  have hal : attemptLoop cfg env path url user quality active 1 3 =
      (some pid, setA user pid active,
        [Ev.spawn pid (buildCmd cfg path url), Ev.term old, Ev.waitT old 10,
         Ev.log (.ffmpegStarted pid quality (cfg.gpu_encoder.getD "copy"))]) := by
    simp [attemptLoop, hp, hact, hne, retireOldAtLaunch, hw]
  unfold start_new_ffmpeg
  rw [hsf, hal]
  simp [hcur, hne]

/-- C1 amended: the handoff starts the new subprocess before retiring the
previously recorded one, so between the spawn and the old handle's
retirement both are live (the trace prefix of length 1 has two live pids);
provided the old process's graceful wait does not time out during the
launch, the completed handoff leaves exactly the new subprocess live,
recorded both in the relay state and in the process table. -/
theorem handoff_single_live_after (cfg : Config) (env : LaunchEnv) (hT : Bool)
    (now : Nat) (user : String) (st : RelayState)
    (active : List (String × Nat)) (stream : Variant) (quality : String)
    (url path : String) (old pid : Nat)
    (hurl : stream.urlResult = .ok url) (hpath : env.ffmpegPath = .ok path)
    (hcur : st.current_ffmpeg = some old)
    (hact : List.lookup user active = some old)
    (hp : env.popen 1 = some pid) (hne : old ≠ pid)
    (hw : env.oldWait 1 = false) :
    (start_new_ffmpeg cfg env hT now user st active stream quality).1 =
      .ok ({ current_ffmpeg := some pid, current_quality := some quality,
             start_time := some now, stream_obj := some stream,
             last_stream_status := st.last_stream_status,
             last_upgrade_logged := st.last_upgrade_logged },
           setA user pid active) ∧
    liveAfter [old]
      (start_new_ffmpeg cfg env hT now user st active stream quality).2 =
        [pid] ∧
    (liveAfter [old]
      ((start_new_ffmpeg cfg env hT now user st active stream quality).2.take 1)).length
      = 2 := by
  have hpidne : ¬pid = old := fun h => hne h.symm
  rw [start_new_ffmpeg_first_attempt cfg env hT now user st active stream
    quality url path old pid hurl hpath hcur hact hp hne hw]
  cases hT <;>
    simp [retirePrevAtHandoff, hne, liveAfter, applyEv, hpidne,
      List.erase_cons, hne.symm]

/-- Witness: a handoff from recorded pid 1 to freshly spawned pid 11
briefly has both live, then completes with exactly pid 11 live and
recorded. -/
theorem handoff_single_live_after_witness :
    (start_new_ffmpeg cfgW (envOkW 10) true 50 "chan" stW [("chan", 1)]
        vbestw "best").1 =
      .ok ({ current_ffmpeg := some 11, current_quality := some "best",
             start_time := some 50, stream_obj := some vbestw,
             last_stream_status := stW.last_stream_status,
             last_upgrade_logged := stW.last_upgrade_logged },
           setA "chan" 11 [("chan", 1)]) ∧
    liveAfter [1]
      (start_new_ffmpeg cfgW (envOkW 10) true 50 "chan" stW [("chan", 1)]
          vbestw "best").2 = [11] ∧
    (liveAfter [1]
      ((start_new_ffmpeg cfgW (envOkW 10) true 50 "chan" stW [("chan", 1)]
          vbestw "best").2.take 1)).length = 2 :=
  handoff_single_live_after cfgW (envOkW 10) true 50 "chan" stW
    [("chan", 1)] vbestw "best" "ubest" "/ff" 1 11 rfl rfl rfl rfl rfl
    (by decide) rfl

/-! ## C7 — the shutdown path -/

/-- C7 counterexample: the `__main__` shutdown retire for recorded pid 5 is
`terminate()` followed by `wait()` with NO timeout — the trace contains an
unbounded wait and no bounded wait — refuting the claimed "bounded wait
for exit" on this path. -/
theorem shutdown_wait_unbounded :
    main_shutdown (some 5) = [Ev.log .exiting, Ev.term 5, Ev.waitU 5] ∧
    countEv isWaitBounded (main_shutdown (some 5)) = 0 ∧
    countEv isWaitUnbounded (main_shutdown (some 5)) = 1 :=
  ⟨rfl, rfl, rfl⟩

/-- C7 amended: on external cancellation the active subprocess (if any) is
retired by a graceful terminate followed by an UNBOUNDED wait (no
timeout); no forced kill is attempted on this path, and no further spawn,
sleep or poll occurs before the process ends; with no active subprocess
only the exit log is emitted. -/
theorem shutdown_retire_behavior :
    (∀ p : Nat,
      main_shutdown (some p) = [Ev.log .exiting, Ev.term p, Ev.waitU p] ∧
      countEv isKill (main_shutdown (some p)) = 0 ∧
      countEv isWaitBounded (main_shutdown (some p)) = 0 ∧
      countEv isSpawn (main_shutdown (some p)) = 0 ∧
      countEv isSleepEv (main_shutdown (some p)) = 0) ∧
    main_shutdown none = [Ev.log .exiting] :=
  ⟨fun _ => ⟨rfl, rfl, rfl, rfl, rfl⟩, rfl⟩

/-! ## C6 — failure containment in the steady-state loop -/

theorem start_ffmpeg_isOk (cfg : Config) (env : LaunchEnv) (user : String)
    (stream : Variant) (quality : String) (active : List (String × Nat))
    (path : String) (hpath : env.ffmpegPath = .ok path) :
    ∃ r, (start_ffmpeg cfg env user stream quality active).1 = .ok r := by
  unfold start_ffmpeg
  cases hu : stream.urlResult with
  | error e => exact ⟨(none, active), rfl⟩
  | ok url =>
    rw [hpath]
    exact ⟨_, rfl⟩

theorem start_new_ffmpeg_isOk (cfg : Config) (env : LaunchEnv) (hT : Bool)
    (now : Nat) (user : String) (st : RelayState)
    (active : List (String × Nat)) (stream : Variant) (quality : String)
    (path : String) (hpath : env.ffmpegPath = .ok path) :
    ∃ r, (start_new_ffmpeg cfg env hT now user st active stream quality).1 =
      .ok r := by
  obtain ⟨r, hr⟩ := start_ffmpeg_isOk cfg env user stream quality active path hpath
  unfold start_new_ffmpeg
  rcases hsf : start_ffmpeg cfg env user stream quality active with ⟨res, tr⟩
  rw [hsf] at hr
  simp at hr
  subst hr
  obtain ⟨opt, a⟩ := r
  cases opt <;> exact ⟨_, rfl⟩

/-- C6 counterexample: in a reachable steady-state monitoring tick whose
max-runtime rotation must relaunch, a failing `get_ffmpeg_path()` (binary
gone, line 105 — outside every `try`) escapes the loop: the step, and the
whole supervisor run, end in an uncaught exception that terminates the
process, contradicting the claim that a transcoding-binary lookup failure
during a relaunch is caught and converted. -/
theorem binary_lookup_failure_escapes :
    (step cfgW "chan" inpNoBinW sysRotW).1 = .error "FFmpeg missing at /x" ∧
    (run cfgW "chan" [inpNoBinW] sysRotW).1 = .error "FFmpeg missing at /x" ∧
    isOkE (step cfgW "chan" inpNoBinW sysRotW).1 = false :=
  ⟨rfl, rfl, rfl⟩

theorem start_new_ffmpeg_ne_error (cfg : Config) (env : LaunchEnv) (hT : Bool)
    (now : Nat) (user : String) (st : RelayState)
    (active : List (String × Nat)) (stream : Variant) (quality : String)
    (path e : String) (tr : List Ev)
    (hpath : env.ffmpegPath = .ok path) :
    start_new_ffmpeg cfg env hT now user st active stream quality ≠
      (.error e, tr) := by
  intro hcontra
  obtain ⟨r, hr⟩ :=
    start_new_ffmpeg_isOk cfg env hT now user st active stream quality path hpath
  rw [hcontra] at hr
  exact Except.noConfusion hr

theorem stepWaiting_isOkE (cfg : Config) (user : String) (inp : StepIn)
    (s : Sys) (path : String) (hpath : inp.launch.ffmpegPath = .ok path) :
    isOkE (stepWaiting cfg user inp s).1 = true := by
  simp only [stepWaiting]
  repeat' split
  all_goals
    first
      | rfl
      | exact absurd (by assumption)
          (start_new_ffmpeg_ne_error _ _ _ _ _ _ _ _ _ path _ _ hpath)

theorem stepMonitor_isOkE (cfg : Config) (user : String) (inp : StepIn)
    (s : Sys) (q : String) (v : Variant)
    (path : String) (hpath : inp.launch.ffmpegPath = .ok path) :
    isOkE (stepMonitor cfg user inp s q v).1 = true := by
  simp only [stepMonitor, monElseBranch]
  repeat' split
  all_goals
    first
      | rfl
      | exact absurd (by assumption)
          (start_new_ffmpeg_ne_error _ _ _ _ _ _ _ _ _ path _ _ hpath)

/-- C6 amended: with the transcoding binary still present, no failure
inside the steady-state loop escapes: for every state and every
combination of resolver failure, URL-resolution failure, `Popen` failure
and retire-wait timeout, a supervisor step returns normally (failures are
converted into retries or state downgrades).  The uncaught case is the
transcoding-binary lookup during a relaunch — see the counterexample
`binary_lookup_failure_escapes`. -/
theorem loop_failures_contained (cfg : Config) (user : String) (inp : StepIn)
    (s : Sys) (path : String) (hpath : inp.launch.ffmpegPath = .ok path) :
    isOkE (step cfg user inp s).1 = true := by
  obtain ⟨rel, act, ph⟩ := s
  cases ph with
  | waiting => exact stepWaiting_isOkE cfg user inp ⟨rel, act, .waiting⟩ path hpath
  | monitor q v =>
    exact stepMonitor_isOkE cfg user inp ⟨rel, act, .monitor q v⟩ q v path hpath

/-- Witness: from the idle initial state, a step whose resolver errors out
(and whose launcher would fail anyway) still returns normally. -/
theorem loop_failures_contained_witness :
    isOkE (step cfgW "chan" inpIdleW initSys).1 = true :=
  loop_failures_contained cfgW "chan" inpIdleW initSys "/ff" rfl

/-! ## C3 — the max-runtime rotation -/

/-- C3 counterexample: from a relaying state (pid 1, session started at 0)
a tick at 40000 s fires the max-runtime rotation.  The supervisor does hand
off to pid 2 with the same variant and quality and a reset timestamp — but
it does NOT remain in the monitoring loop: the resulting phase is
`waiting` (the `break` at line 180), and the very next poll performs a
second handoff (pid 3), so one rotation trigger yields 2 subprocess
launches before monitoring resumes — not "exactly one handoff". -/
theorem max_runtime_double_handoff :
    Ev.log LogMsg.maxRuntime ∈ (step cfgW "chan" inpRot1W sysRotW).2 ∧
    (step cfgW "chan" inpRot1W sysRotW).1 =
      .ok { relay := { current_ffmpeg := some 2, current_quality := some "720p",
                       start_time := some 40000, stream_obj := some v720w,
                       last_stream_status := some .online,
                       last_upgrade_logged := false },
            active := [("chan", 2)], phase := .waiting } ∧
    countEv isSpawn (step cfgW "chan" inpRot1W sysRotW).2 = 1 ∧
    countEv isSpawn (run cfgW "chan" [inpRot1W, inpRot2W] sysRotW).2 = 2 ∧
    (run cfgW "chan" [inpRot1W, inpRot2W] sysRotW).1 =
      .ok { relay := { current_ffmpeg := some 3, current_quality := some "720p",
                       start_time := some 40001, stream_obj := some v720w,
                       last_stream_status := some .online,
                       last_upgrade_logged := false },
            active := [("chan", 3)], phase := .monitor "720p" v720w } :=
  ⟨by decide, by decide, by decide, by decide, by decide⟩

/-- C3 amended: when the max-runtime condition fires on a monitoring tick
(live subprocess, more than 10.5 h elapsed) and the rotation's launch
succeeds at its first attempt, the supervisor performs exactly one handoff
in that tick, with the loop-local variant and quality (those of the
current session), resetting the session start timestamp to the rotation
time — and then exits the monitoring loop to the wait-for-stream phase
(where, with the stream still up, a second handoff follows before
monitoring resumes, as the counterexample shows). -/
theorem max_runtime_rotation_behavior (cfg : Config) (user : String)
    (inp : StepIn) (rel : RelayState) (act : List (String × Nat))
    (q : String) (v : Variant) (url path : String) (old pid : Nat)
    (hurl : v.urlResult = .ok url)
    (hpath : inp.launch.ffmpegPath = .ok path)
    (hcur : rel.current_ffmpeg = some old)
    (halive : inp.procAlive = true)
    (hrt : inp.now - rel.start_time.getD 0 > FFMPEG_MAX_RUNTIME)
    (hact : List.lookup user act = some old)
    (hp : inp.launch.popen 1 = some pid) (hne : old ≠ pid)
    (hw : inp.launch.oldWait 1 = false) :
    (step cfg user inp ⟨rel, act, .monitor q v⟩).1 =
      .ok { relay := { current_ffmpeg := some pid, current_quality := some q,
                       start_time := some inp.now, stream_obj := some v,
                       last_stream_status := rel.last_stream_status,
                       last_upgrade_logged := rel.last_upgrade_logged },
            active := setA user pid act, phase := .waiting } ∧
    countEv isSpawn (step cfg user inp ⟨rel, act, .monitor q v⟩).2 = 1 ∧
    Ev.log LogMsg.maxRuntime ∈ (step cfg user inp ⟨rel, act, .monitor q v⟩).2 := by
  have hsn := start_new_ffmpeg_first_attempt cfg inp.launch inp.hTimeout inp.now
    user rel act v q url path old pid hurl hpath hcur hact hp hne hw
  have hstep : step cfg user inp ⟨rel, act, .monitor q v⟩ =
      stepMonitor cfg user inp ⟨rel, act, .monitor q v⟩ q v := rfl
  have key : step cfg user inp ⟨rel, act, .monitor q v⟩ =
      (.ok { relay := { current_ffmpeg := some pid, current_quality := some q,
                        start_time := some inp.now, stream_obj := some v,
                        last_stream_status := rel.last_stream_status,
                        last_upgrade_logged := rel.last_upgrade_logged },
             active := setA user pid act, phase := .waiting },
       [Ev.sleep 30] ++ Ev.log LogMsg.maxRuntime ::
         ([Ev.spawn pid (buildCmd cfg path url), Ev.term old, Ev.waitT old 10,
           Ev.log (.ffmpegStarted pid q (cfg.gpu_encoder.getD "copy"))] ++
            retirePrevAtHandoff old inp.hTimeout)) := by
    rw [hstep]
    unfold stepMonitor
    rw [hcur]
    simp only [halive, Bool.not_true, Bool.false_eq_true, if_false, hrt,
      if_true, ite_true, hsn]
  rw [key]
  refine ⟨rfl, ?_, ?_⟩
  · cases inp.hTimeout <;>
      simp [countEv, isSpawn, retirePrevAtHandoff]
  · simp [retirePrevAtHandoff]

/-- Witness: the rotation tick of the counterexample scenario satisfies the
amended rotation behaviour. -/
theorem max_runtime_rotation_behavior_witness :
    (step cfgW "chan" inpRot1W ⟨stW, [("chan", 1)], .monitor "720p" v720w⟩).1 =
      .ok { relay := { current_ffmpeg := some 2, current_quality := some "720p",
                       start_time := some 40000, stream_obj := some v720w,
                       last_stream_status := stW.last_stream_status,
                       last_upgrade_logged := stW.last_upgrade_logged },
            active := setA "chan" 2 [("chan", 1)], phase := .waiting } ∧
    countEv isSpawn
      (step cfgW "chan" inpRot1W ⟨stW, [("chan", 1)], .monitor "720p" v720w⟩).2 = 1 ∧
    Ev.log LogMsg.maxRuntime ∈
      (step cfgW "chan" inpRot1W ⟨stW, [("chan", 1)], .monitor "720p" v720w⟩).2 :=
  max_runtime_rotation_behavior cfgW "chan" inpRot1W stW [("chan", 1)]
    "720p" v720w "u720" "/ff" 1 2 rfl rfl rfl rfl (by decide) rfl rfl
    (by decide) rfl

/-! ## C8 — status-change log gating -/

/-- C8 counterexample: after polls 1-3 of the upgrade scenario (720p
session; "best" appeared at poll 2, was handed off to with one upgrade log,
then vanished; poll 3 restarted a 720p session) the upgrade-logged flag is
still set.  At poll 4 the upgrade condition holds again — a NEW run,
since it was false at poll 3 — yet the poll emits NO upgrade log
(`countEv isUpgLog ... = 0`), contradicting "emitted exactly once, at the
first poll of the run".  Over all four polls the line appears once, not
once per run. -/
theorem upgrade_log_skipped_new_run :
    (run cfgW "chan" [inpU1, inpU2, inpU3] initSys).1 = .ok sysU3 ∧
    List.lookup "best" (streamsOf inpU3) = none ∧
    upgradeCondFires inpU4 sysU3 = true ∧
    countEv isUpgLog (step cfgW "chan" inpU4 sysU3).2 = 0 ∧
    countEv isUpgLog (run cfgW "chan" [inpU1, inpU2, inpU3, inpU4] initSys).2 = 1 :=
  ⟨by decide, by decide, by decide, by decide, by decide⟩

theorem attemptLoop_status_count (cfg : Config) (env : LaunchEnv)
    (path url user quality : String) (active : List (String × Nat)) :
    ∀ fuel attempt,
      countEv isStatusLog
        (attemptLoop cfg env path url user quality active attempt fuel).2.2 = 0 := by
  intro fuel
  induction fuel with
  | zero => intro attempt; rfl
  | succ n ih =>
    intro attempt
    cases hp : env.popen attempt with
    | none =>
      simp [attemptLoop, hp, prependTr, countEv_append, countEv, isStatusLog,
        isWaitOffLog, isStreamOffLog, isOnlineLog, isUpgLog]
      intro a ha
      have h := (countEv_eq_zero isStatusLog _).mp (ih (attempt + 1)) a ha
      simpa [isStatusLog, isWaitOffLog, isStreamOffLog, isOnlineLog, isUpgLog]
        using h
    | some pid =>
      cases hl : List.lookup user active with
      | none =>
        simp [attemptLoop, hp, hl, countEv, isStatusLog,
          isWaitOffLog, isStreamOffLog, isOnlineLog, isUpgLog]
      | some old =>
        by_cases hop : old = pid
        · simp [attemptLoop, hp, hl, hop, countEv, isStatusLog,
            isWaitOffLog, isStreamOffLog, isOnlineLog, isUpgLog]
        · cases hw : env.oldWait attempt with
          | false =>
            simp [attemptLoop, hp, hl, hop, retireOldAtLaunch, hw,
              countEv_append, countEv, isStatusLog,
              isWaitOffLog, isStreamOffLog, isOnlineLog, isUpgLog]
          | true =>
            simp [attemptLoop, hp, hl, hop, retireOldAtLaunch, hw, prependTr,
              countEv_append, countEv, isStatusLog,
              isWaitOffLog, isStreamOffLog, isOnlineLog, isUpgLog]
            intro a ha
            have h := (countEv_eq_zero isStatusLog _).mp (ih (attempt + 1)) a ha
            simpa [isStatusLog, isWaitOffLog, isStreamOffLog, isOnlineLog,
              isUpgLog] using h

theorem start_ffmpeg_status_count (cfg : Config) (env : LaunchEnv)
    (user : String) (stream : Variant) (quality : String)
    (active : List (String × Nat)) :
    countEv isStatusLog (start_ffmpeg cfg env user stream quality active).2 = 0 := by
  unfold start_ffmpeg
  cases hu : stream.urlResult with
  | error er => rfl
  | ok url =>
    cases hfp : env.ffmpegPath with
    | error e2 => rfl
    | ok path =>
      exact attemptLoop_status_count cfg env path url user quality active 3 1

theorem retirePrev_status_count (old : Nat) (t : Bool) :
    countEv isStatusLog (retirePrevAtHandoff old t) = 0 := by
  cases t <;> rfl

theorem start_new_ffmpeg_status_count (cfg : Config) (env : LaunchEnv)
    (hT : Bool) (now : Nat) (user : String) (st : RelayState)
    (active : List (String × Nat)) (stream : Variant) (quality : String) :
    countEv isStatusLog
      (start_new_ffmpeg cfg env hT now user st active stream quality).2 = 0 := by
  have htr := start_ffmpeg_status_count cfg env user stream quality active
  unfold start_new_ffmpeg
  rcases hsf : start_ffmpeg cfg env user stream quality active with ⟨res, tr⟩
  rw [hsf] at htr
  cases res with
  | error er => exact htr
  | ok ra =>
    obtain ⟨opt, a⟩ := ra
    cases opt with
    | none =>
      rw [countEv_append, htr]
      rfl
    | some p =>
      rw [countEv_append, htr]
      cases hc : st.current_ffmpeg with
      | none => rfl
      | some old =>
        have hre : (match some old with
            | some o => if o ≠ p then retirePrevAtHandoff o hT else []
            | none => ([] : List Ev)) =
            if old ≠ p then retirePrevAtHandoff old hT else [] := rfl
        rw [hre]
        by_cases hop : old ≠ p
        · rw [if_pos hop, retirePrev_status_count]
        · rw [if_neg hop]
          rfl

theorem countStatusSub (p : Ev → Bool)
    (hsub : ∀ e, p e = true → isStatusLog e = true) (tr : List Ev)
    (hzero : countEv isStatusLog tr = 0) : countEv p tr = 0 := by
  rw [countEv_eq_zero]
  intro e he
  have hfree := (countEv_eq_zero isStatusLog tr).mp hzero e he
  cases hpe : p e with
  | false => rfl
  | true =>
    have h1 := hsub e hpe
    rw [h1] at hfree
    exact hfree

/-- C8 amended: per-step characterisation of every status-change log line.
Each line is emitted at a poll exactly when its condition holds AND its
gating state differs: "Waiting for Twitch stream..." when a waiting poll
finds no variants and the last status is not already offline; "Twitch
stream online" when a waiting poll finds variants and the last status is
not already online; "Stream offline, waiting..." when a monitored poll
reaches check 4 with no variants and status not already offline; and
"Higher quality available, upgrading..." when the upgrade condition holds
and the upgrade-logged flag is clear.  Because that flag is cleared only
by a monitored poll that observes the upgrade condition false, a new run
of the condition can emit no log at its first poll (see the
counterexample); per-run "exactly once" holds only for the offline/online
lines. -/
theorem status_log_gating (cfg : Config) (user : String) (inp : StepIn)
    (s : Sys) :
    countEv isUpgLog (step cfg user inp s).2 =
      (if upgLogFires inp s then 1 else 0) ∧
    countEv isWaitOffLog (step cfg user inp s).2 =
      (if waitOffLogFires inp s then 1 else 0) ∧
    countEv isStreamOffLog (step cfg user inp s).2 =
      (if streamOffLogFires inp s then 1 else 0) ∧
    countEv isOnlineLog (step cfg user inp s).2 =
      (if onlineLogFires inp s then 1 else 0) := by
  have hsubU : ∀ e, isUpgLog e = true → isStatusLog e = true := by
    intro e h
    simp [isStatusLog, h]
  have hsubW : ∀ e, isWaitOffLog e = true → isStatusLog e = true := by
    intro e h
    simp [isStatusLog, h]
  have hsubS : ∀ e, isStreamOffLog e = true → isStatusLog e = true := by
    intro e h
    simp [isStatusLog, h]
  have hsubO : ∀ e, isOnlineLog e = true → isStatusLog e = true := by
    intro e h
    simp [isStatusLog, h]
  obtain ⟨rel, act, ph⟩ := s
  cases ph with
  | waiting =>
    cases hpick : pick_best_stream (streamsOf inp) with
    | none =>
      have hs : streamsOf inp = [] := (pick_none_iff_empty _).mp hpick
      rw [hs] at hpick
      by_cases hoff : rel.last_stream_status ≠ some Status.offline <;>
        simp [step, stepWaiting, hpick, hoff, hs, countEv, isUpgLog,
          isWaitOffLog, isStreamOffLog, isOnlineLog, upgLogFires,
          waitOffLogFires, streamOffLogFires, onlineLogFires]
    | some qv =>
      obtain ⟨q, v⟩ := qv
      have hs : ¬streamsOf inp = [] := by
        intro h
        rw [(pick_none_iff_empty (streamsOf inp)).mpr h] at hpick
        exact Option.noConfusion hpick
      by_cases hon : rel.last_stream_status ≠ some Status.online
      · rcases hsn : start_new_ffmpeg cfg inp.launch inp.hTimeout inp.now user
          { rel with last_stream_status := some Status.online } act v q
          with ⟨res, tr⟩
        have h0 : countEv isStatusLog tr = 0 := by
          have h := start_new_ffmpeg_status_count cfg inp.launch inp.hTimeout
            inp.now user { rel with last_stream_status := some Status.online }
            act v q
          rw [hsn] at h
          exact h
        have hU := (countEv_eq_zero _ _).mp (countStatusSub _ hsubU tr h0)
        have hW := (countEv_eq_zero _ _).mp (countStatusSub _ hsubW tr h0)
        have hS := (countEv_eq_zero _ _).mp (countStatusSub _ hsubS tr h0)
        have hO := (countEv_eq_zero _ _).mp (countStatusSub _ hsubO tr h0)
        cases res <;>
          · simp [step, stepWaiting, hpick, hon, hsn, hs, countEv_append,
              countEv, isUpgLog, isWaitOffLog, isStreamOffLog, isOnlineLog,
              upgLogFires, waitOffLogFires, streamOffLogFires, onlineLogFires]
            and_intros <;> intro a ha <;>
              first
                | exact hU a ha
                | exact hW a ha
                | exact hS a ha
                | exact hO a ha
      · rcases hsn : start_new_ffmpeg cfg inp.launch inp.hTimeout inp.now user
          rel act v q with ⟨res, tr⟩
        have h0 : countEv isStatusLog tr = 0 := by
          have h := start_new_ffmpeg_status_count cfg inp.launch inp.hTimeout
            inp.now user rel act v q
          rw [hsn] at h
          exact h
        have hU := (countEv_eq_zero _ _).mp (countStatusSub _ hsubU tr h0)
        have hW := (countEv_eq_zero _ _).mp (countStatusSub _ hsubW tr h0)
        have hS := (countEv_eq_zero _ _).mp (countStatusSub _ hsubS tr h0)
        have hO := (countEv_eq_zero _ _).mp (countStatusSub _ hsubO tr h0)
        cases res <;>
          · simp [step, stepWaiting, hpick, hon, hsn, hs, countEv_append,
              countEv, isUpgLog, isWaitOffLog, isStreamOffLog, isOnlineLog,
              upgLogFires, waitOffLogFires, streamOffLogFires, onlineLogFires]
            and_intros <;> intro a ha <;>
              first
                | exact hU a ha
                | exact hW a ha
                | exact hS a ha
                | exact hO a ha
  | monitor q v =>
    cases hc : rel.current_ffmpeg with
    | none =>
      simp [step, stepMonitor, hc, countEv, isUpgLog, isWaitOffLog,
        isStreamOffLog, isOnlineLog, upgLogFires, waitOffLogFires,
        streamOffLogFires, onlineLogFires]
    | some cur =>
      cases halive : inp.procAlive with
      | false =>
        simp [step, stepMonitor, hc, halive, countEv, isUpgLog, isWaitOffLog,
          isStreamOffLog, isOnlineLog, upgLogFires, waitOffLogFires,
          streamOffLogFires, onlineLogFires]
      | true =>
        by_cases hrt : inp.now - rel.start_time.getD 0 > FFMPEG_MAX_RUNTIME
        · rcases hsn : start_new_ffmpeg cfg inp.launch inp.hTimeout inp.now
            user rel act v q with ⟨res, tr⟩
          have h0 : countEv isStatusLog tr = 0 := by
            have h := start_new_ffmpeg_status_count cfg inp.launch inp.hTimeout
              inp.now user rel act v q
            rw [hsn] at h
            exact h
          have hU := (countEv_eq_zero _ _).mp (countStatusSub _ hsubU tr h0)
          have hW := (countEv_eq_zero _ _).mp (countStatusSub _ hsubW tr h0)
          have hS := (countEv_eq_zero _ _).mp (countStatusSub _ hsubS tr h0)
          have hO := (countEv_eq_zero _ _).mp (countStatusSub _ hsubO tr h0)
          cases res <;>
            · simp [step, stepMonitor, hc, halive, hrt, hsn, countEv_append,
                countEv, isUpgLog, isWaitOffLog, isStreamOffLog, isOnlineLog,
                upgLogFires, waitOffLogFires, streamOffLogFires, onlineLogFires]
              and_intros <;> intro a ha <;>
                first
                  | exact hU a ha
                  | exact hW a ha
                  | exact hS a ha
                  | exact hO a ha
        · cases hb : List.lookup "best" (streamsOf inp) with
          | some bv =>
            by_cases hq : rel.current_quality ≠ some "best"
            · cases hfl : rel.last_upgrade_logged with
              | false =>
                rcases hsn : start_new_ffmpeg cfg inp.launch inp.hTimeout
                  inp.now user { rel with last_upgrade_logged := true } act
                  bv "best" with ⟨res, tr⟩
                have h0 : countEv isStatusLog tr = 0 := by
                  have h := start_new_ffmpeg_status_count cfg inp.launch
                    inp.hTimeout inp.now user
                    { rel with last_upgrade_logged := true } act bv "best"
                  rw [hsn] at h
                  exact h
                simp only [hc] at hsn
                have hU := (countEv_eq_zero _ _).mp (countStatusSub _ hsubU tr h0)
                have hW := (countEv_eq_zero _ _).mp (countStatusSub _ hsubW tr h0)
                have hS := (countEv_eq_zero _ _).mp (countStatusSub _ hsubS tr h0)
                have hO := (countEv_eq_zero _ _).mp (countStatusSub _ hsubO tr h0)
                cases res <;>
                  · simp [step, stepMonitor, hc, halive, hrt, hb, hq, hfl, hsn,
                      countEv_append,
                      countEv, isUpgLog, isWaitOffLog, isStreamOffLog,
                      isOnlineLog, upgLogFires, waitOffLogFires,
                      streamOffLogFires, onlineLogFires]
                    and_intros <;> intro a ha <;>
                      first
                        | exact hU a ha
                        | exact hW a ha
                        | exact hS a ha
                        | exact hO a ha
              | true =>
                rcases hsn : start_new_ffmpeg cfg inp.launch inp.hTimeout
                  inp.now user rel act bv "best" with ⟨res, tr⟩
                have h0 : countEv isStatusLog tr = 0 := by
                  have h := start_new_ffmpeg_status_count cfg inp.launch
                    inp.hTimeout inp.now user rel act bv "best"
                  rw [hsn] at h
                  exact h
                have hU := (countEv_eq_zero _ _).mp (countStatusSub _ hsubU tr h0)
                have hW := (countEv_eq_zero _ _).mp (countStatusSub _ hsubW tr h0)
                have hS := (countEv_eq_zero _ _).mp (countStatusSub _ hsubS tr h0)
                have hO := (countEv_eq_zero _ _).mp (countStatusSub _ hsubO tr h0)
                cases res <;>
                  · simp [step, stepMonitor, hc, halive, hrt, hb, hq, hfl, hsn,
                      countEv_append,
                      countEv, isUpgLog, isWaitOffLog, isStreamOffLog,
                      isOnlineLog, upgLogFires, waitOffLogFires,
                      streamOffLogFires, onlineLogFires]
                    and_intros <;> intro a ha <;>
                      first
                        | exact hU a ha
                        | exact hW a ha
                        | exact hS a ha
                        | exact hO a ha
            · have hsne : ¬streamsOf inp = [] := by
                intro h
                rw [h] at hb
                exact Option.noConfusion hb
              simp [step, stepMonitor, monElseBranch, hc, halive, hrt, hb, hq,
                hsne, countEv, isUpgLog, isWaitOffLog, isStreamOffLog,
                isOnlineLog, upgLogFires, waitOffLogFires, streamOffLogFires,
                onlineLogFires]
          | none =>
            by_cases h1 : streamsOf inp = [] <;>
              by_cases h2 : rel.last_stream_status ≠ some Status.offline <;>
                simp [step, stepMonitor, monElseBranch, hc, halive, hrt, hb,
                  h1, h2, countEv, isUpgLog, isWaitOffLog, isStreamOffLog,
                  isOnlineLog, upgLogFires, waitOffLogFires,
                  streamOffLogFires, onlineLogFires]

end Twitch2YT
